import Mathlib

/-!
The file listener of `main.go` (graceful shutdown).

A shallow embedding of `FileListener` (`Start`, `Stop`, `listen`, `handle`) and of `main`.

* The external collaborators (the fsnotify watcher, the rendering of an event) are the
  fields of `Env`.
* Every function of the listener is a thread program: a step function from the
  statement it is about to execute to the next one, together with the effect of the
  statement (`listenStep`, `handleStep`, `stopStep`; `Start` is straight-line).
* `step` interleaves the threads: the scheduler picks which thread executes its next
  statement. `sync.WaitGroup` is the integer `counter`; `Wait` is enabled only at zero.
-/

namespace GracefulShutdown

/-- Go `error` values: a plain error, or one built by `fmt.Errorf` with `%w`. -/
inductive GoError where
  | base (msg : String)
  | wrapped (msg : String) (cause : GoError)
  deriving DecidableEq

/-- The method `Error()` of an error value. -/
def GoError.Error : GoError → String
  | .base msg => msg
  | .wrapped msg _ => msg

/-- The function `errors.Unwrap`: the error wrapped with `%w`, if any. -/
def GoError.Unwrap : GoError → Option GoError
  | .base _ => none
  | .wrapped _ cause => some cause

/-- The type `context.Context`, identified by the logger it carries. -/
structure Context where
  id : Nat
  deriving DecidableEq

/-- The type `fsnotify.Event`: a path and a bit mask of operations. -/
structure Event where
  Name : String
  Op : Nat
  deriving DecidableEq

/-- The external collaborators of the listener. -/
structure Env where
  /-- The call `fl.watcher.Add(sourcePath)`: `none` is a nil error. -/
  watcherAdd : String → Option GoError
  /-- The call `fl.watcher.Close()` made by the k-th call of `Stop`. -/
  watcherClose : Nat → Option GoError
  /-- The method `event.String()`. -/
  eventString : Event → String

/-- The log records written by the listener (message and fields). -/
inductive LogRecord where
  /-- The statement `Info().Str("sourcePath", sourcePath).Msg("Filesystem listener started ...")` -/
  | listenerStarted (sourcePath : String)
  /-- The statement `Info().Msg("Filesystem listener closed")` -/
  | listenerClosed
  /-- The statement `Info().Msg("Waiting for ongoing handlers to finish ...")` -/
  | waitingForHandlers
  /-- The statement `Info().Msg("All ongoing handlers finished")` -/
  | handlersFinished
  /-- The statement `Info().Msg("File listener stopped listening")` -/
  | stoppedListening
  /-- The statement `Error().Err(err).Msg("File listener event error")` -/
  | eventError (err : GoError)
  /-- The statement `Info().Str("event", event.String()).Msg("File event received")` -/
  | eventReceived (event : String)
  /-- The statement `Info().Str("event", event.String()).Msg("File event handled")` -/
  | eventHandled (event : String)
  deriving DecidableEq

/-- The effect of one executed statement. -/
inductive Eff where
  | log (r : LogRecord)
  /-- The statement `fl.watcher.Add(sourcePath)` returned `res`. -/
  | watcherAdd (sourcePath : String) (res : Option GoError)
  /-- The statement `fl.watcher.Close()` returned `res`. -/
  | watcherClose (res : Option GoError)
  /-- The statement `go fl.listen(ctx)` -/
  | goListen (ctx : Context)
  /-- The statement `go fl.handle(ctx, event)` -/
  | goHandle (ctx : Context) (event : Event)
  /-- The statement `fl.ongoindHandlers.Add(delta)` -/
  | wgAdd (delta : Int)
  /-- The statement `fl.ongoindHandlers.Done()` -/
  | wgDone
  /-- The statement `fl.ongoindHandlers.Wait()` returned. -/
  | wgWait
  /-- The statement `fl.handler.Handle(ctx, event)` is entered. -/
  | handlerCall (ctx : Context) (event : Event)
  /-- The statement `fl.handler.Handle` returned. -/
  | handlerReturn
  /-- The function returned the error value `res`. -/
  | ret (res : Option GoError)
  /-- The function returned (no result). -/
  | retVoid
  deriving DecidableEq

/-- The change a statement makes to the WaitGroup counter. -/
def Eff.wgDelta : Eff → Int
  | .wgAdd delta => delta
  | .wgDone => -1
  | _ => 0

/-! Section: Start. -/

/-- The error built by
`fmt.Errorf("cannot add %s path to filesystem listener: %w", sourcePath, err)`. -/
def registrationError (sourcePath : String) (err : GoError) : GoError :=
  .wrapped ("cannot add " ++ sourcePath ++ " path to filesystem listener: " ++ err.Error) err

/-- The function `FileListener.Start`: the statements it executes, in order; the last
one is its return. -/
def Start (env : Env) (ctx : Context) (sourcePath : String) : List Eff :=
  match env.watcherAdd sourcePath with
  | some err =>
    [.log (.listenerStarted sourcePath), .watcherAdd sourcePath (some err),
     .ret (some (registrationError sourcePath err))]
  | none =>
    [.log (.listenerStarted sourcePath), .watcherAdd sourcePath none,
     .goListen ctx, .ret none]

/-- The value a function returned: the argument of the `ret` that ends its effects. -/
def returned : List Eff → Option (Option GoError)
  | [] => none
  | [.ret res] => some res
  | _ :: rest => returned rest

/-- The dispatch loops launched (`go fl.listen(ctx)`) among some effects. -/
def launched (effs : List Eff) : List Context :=
  effs.filterMap fun
    | .goListen ctx => some ctx
    | _ => none

/-- The handle invocations scheduled (`go fl.handle(ctx, event)`) among some effects. -/
def scheduled (effs : List Eff) : List (Context × Event) :=
  effs.filterMap fun
    | .goHandle ctx event => some (ctx, event)
    | _ => none

/-- The net change some effects make to the WaitGroup counter. -/
def wgNet (effs : List Eff) : Int :=
  (effs.map Eff.wgDelta).sum

/-! Section: listen. -/

/-- What one `select` of the dispatch loop receives: `value, ok := <-channel`, with
`none` for `ok == false` (the channel is closed). -/
inductive Recv where
  /-- The case `case event, ok := <-fl.watcher.Events` -/
  | events (event : Option Event)
  /-- The case `case err, ok := <-fl.watcher.Errors` -/
  | errors (err : Option GoError)
  deriving DecidableEq

/-- A receive that observes a closed channel. -/
def Recv.isClosed : Recv → Bool
  | .events none => true
  | .errors none => true
  | _ => false

/-- The events among some receives, each paired with the context `ctx`. -/
def eventsOf (ctx : Context) (inputs : List Recv) : List (Context × Event) :=
  inputs.filterMap fun
    | .events (some event) => some (ctx, event)
    | _ => none

/-- The states of the dispatch loop. -/
inductive LoopState where
  | Running
  | Stopped
  deriving DecidableEq

/-- One iteration of the `for { select { ... } }` of `FileListener.listen`. -/
def listenStep (ctx : Context) : Recv → LoopState × List Eff
  | .events none => (.Stopped, [.log .stoppedListening, .retVoid])
  | .events (some event) => (.Running, [.goHandle ctx event])
  | .errors none => (.Stopped, [.log .stoppedListening, .retVoid])
  | .errors (some err) => (.Running, [.log (.eventError err)])

/-- The function `FileListener.listen` on the receives of its successive iterations:
the state it is left in and the statements it executed. With no receive left the loop
is suspended in its `select`; after its `return` nothing is read. -/
def listen (ctx : Context) : List Recv → LoopState × List Eff
  | [] => (.Running, [])
  | r :: rest =>
    match listenStep ctx r with
    | (.Stopped, effs) => (.Stopped, effs)
    | (.Running, effs) => ((listen ctx rest).1, effs ++ (listen ctx rest).2)

/-! Section: handle. -/

/-- The statement a `handle` goroutine is about to execute. -/
inductive HandlePc where
  /-- At `logger.Info()...Msg("File event received")` (the goroutine was just spawned). -/
  | atLogReceived
  /-- At `fl.ongoindHandlers.Add(1)`. -/
  | atAdd
  /-- At the call `fl.handler.Handle(ctx, event)` (`Done` is deferred). -/
  | atHandle
  /-- Inside `FileHandler.Handle`. -/
  | inHandle
  /-- At `logger.Info()...Msg("File event handled")`. -/
  | atLogHandled
  /-- At the deferred `fl.ongoindHandlers.Done()`. -/
  | atDone
  /-- The goroutine has returned. -/
  | finished
  deriving DecidableEq

/-- One statement of `FileListener.handle`. -/
def handleStep (env : Env) (ctx : Context) (event : Event) : HandlePc → Option (HandlePc × Eff)
  | .atLogReceived => some (.atAdd, .log (.eventReceived (env.eventString event)))
  | .atAdd => some (.atHandle, .wgAdd 1)
  | .atHandle => some (.inHandle, .handlerCall ctx event)
  | .inHandle => some (.atLogHandled, .handlerReturn)
  | .atLogHandled => some (.atDone, .log (.eventHandled (env.eventString event)))
  | .atDone => some (.finished, .wgDone)
  | .finished => none

/-- The function `FileListener.handle` run for at most `fuel` statements from `pc`:
where it stands afterwards and the statements it executed. -/
def handle (env : Env) (ctx : Context) (event : Event) : Nat → HandlePc → HandlePc × List Eff
  | 0, pc => (pc, [])
  | fuel + 1, pc =>
    match handleStep env ctx event pc with
    | none => (pc, [])
    | some (pc', eff) =>
      ((handle env ctx event fuel pc').1, eff :: (handle env ctx event fuel pc').2)

/-- The invocation has executed `Add(1)` and not yet its deferred `Done()`. -/
def HandlePc.tracked : HandlePc → Bool
  | .atHandle => true
  | .inHandle => true
  | .atLogHandled => true
  | .atDone => true
  | _ => false

/-- The call `fl.handler.Handle(ctx, event)` is executing. -/
def HandlePc.executing : HandlePc → Bool
  | .inHandle => true
  | _ => false

/-- The goroutine exists and has not returned. -/
def HandlePc.live : HandlePc → Bool
  | .finished => false
  | _ => true

/-! Section: Stop. -/

/-- The statement a call of `Stop` is about to execute; `err` is its local variable. -/
inductive StopPc where
  /-- No call of `Stop` is executing; the next one starts at `fl.watcher.Close()`. -/
  | idle
  /-- At `logger.Info().Msg("Filesystem listener closed")`. -/
  | atLogClosed (err : Option GoError)
  /-- At `logger.Info().Msg("Waiting for ongoing handlers to finish ...")`. -/
  | atLogWaiting (err : Option GoError)
  /-- At `fl.ongoindHandlers.Wait()`. -/
  | atWait (err : Option GoError)
  /-- At `logger.Info().Msg("All ongoing handlers finished")`. -/
  | atLogFinished (err : Option GoError)
  /-- At `return err`. -/
  | atReturn (err : Option GoError)
  deriving DecidableEq

/-- One statement of the k-th call of `FileListener.Stop`, with the WaitGroup counter at
`counter`: `Wait` returns only when the counter is zero, and blocks otherwise. -/
def stopStep (env : Env) (k : Nat) (counter : Int) : StopPc → Option (StopPc × Eff)
  | .idle => some (.atLogClosed (env.watcherClose k), .watcherClose (env.watcherClose k))
  | .atLogClosed err => some (.atLogWaiting err, .log .listenerClosed)
  | .atLogWaiting err => some (.atWait err, .log .waitingForHandlers)
  | .atWait err => if counter = 0 then some (.atLogFinished err, .wgWait) else none
  | .atLogFinished err => some (.atReturn err, .log .handlersFinished)
  | .atReturn err => some (.idle, .ret err)

/-! Section: The listener as a transition system. -/

/-- A spawned `handle` goroutine. -/
structure Invocation where
  ctx : Context
  event : Event
  pc : HandlePc
  deriving DecidableEq

/-- The threads of the listener. -/
inductive Thread where
  /-- A call of `Start`. -/
  | start
  /-- The dispatch loop. -/
  | listen
  /-- The i-th spawned `handle` goroutine. -/
  | handle (i : Nat)
  /-- The k-th call of `Stop`. -/
  | stop (k : Nat)
  deriving DecidableEq

/-- The state of a `FileListener` and of the goroutines around it. -/
structure State where
  /-- The dispatch loop, once launched, with the context given to it. -/
  loop : Option (Context × LoopState)
  /-- The watcher was closed. -/
  closed : Bool
  /-- The counter of the WaitGroup `ongoindHandlers`. -/
  counter : Int
  /-- The `handle` goroutines, in the order they were spawned. -/
  handlers : List Invocation
  /-- The call of `Stop` in progress. -/
  stopPc : StopPc
  /-- The number of calls of `Stop` that returned. -/
  stopCalls : Nat
  /-- Every executed statement, oldest first. -/
  trace : List (Thread × Eff)

/-- The listener built by `NewFileListener`. -/
def NewFileListener : State :=
  { loop := none, closed := false, counter := 0, handlers := [], stopPc := .idle,
    stopCalls := 0, trace := [] }

/-- What the scheduler and the surroundings choose next. -/
inductive Action where
  /-- The caller runs `Start(ctx, sourcePath)`. -/
  | start (ctx : Context) (sourcePath : String)
  /-- The `select` of the dispatch loop receives `r`. -/
  | recv (r : Recv)
  /-- The i-th `handle` goroutine executes its next statement. -/
  | handle (i : Nat)
  /-- The caller of `Stop` executes its next statement (a new call when none runs). -/
  | stop
  deriving DecidableEq

/-- One step of the listener; `none` when the action is not enabled. `Start` is run on
a listener whose dispatch loop was not launched yet, and its statements, which touch
nothing the other threads read, are taken in one step; a receive needs a running loop
and observes a closed channel only after the watcher was closed; `Wait` blocks while the
counter is not zero. -/
def step (env : Env) (s : State) : Action → Option State
  | .start ctx sourcePath =>
    match s.loop with
    | some _ => none
    | none =>
      some { s with
        loop := (launched (Start env ctx sourcePath)).head?.map fun c => (c, .Running)
        trace := s.trace ++ (Start env ctx sourcePath).map fun e => (Thread.start, e) }
  | .recv r =>
    match s.loop with
    | some (ctx, .Running) =>
      if r.isClosed && !s.closed then none
      else
        some { s with
          loop := some (ctx, (listenStep ctx r).1)
          handlers := s.handlers ++
            (scheduled (listenStep ctx r).2).map fun p => Invocation.mk p.1 p.2 .atLogReceived
          trace := s.trace ++ (listenStep ctx r).2.map fun e => (Thread.listen, e) }
    | _ => none
  | .handle i =>
    match s.handlers[i]? with
    | none => none
    | some inv =>
      match handleStep env inv.ctx inv.event inv.pc with
      | none => none
      | some (pc, eff) =>
        some { s with
          counter := s.counter + eff.wgDelta
          handlers := s.handlers.set i { inv with pc := pc }
          trace := s.trace ++ [(Thread.handle i, eff)] }
  | .stop =>
    match stopStep env s.stopCalls s.counter s.stopPc with
    | none => none
    | some (pc, eff) =>
      some { s with
        closed := s.closed || (match eff with | .watcherClose _ => true | _ => false)
        stopPc := pc
        stopCalls := s.stopCalls + (match eff with | .ret _ => 1 | _ => 0)
        trace := s.trace ++ [(Thread.stop s.stopCalls, eff)] }

/-- A schedule run from a state; `none` when one of its actions is not enabled. -/
def run (env : Env) (s : State) : List Action → Option State
  | [] => some s
  | a :: rest =>
    match step env s a with
    | none => none
    | some s' => run env s' rest

/-- The states the listener can be in. -/
def Reachable (env : Env) (s : State) : Prop :=
  ∃ acts, run env NewFileListener acts = some s

/-- The number of invocations between their `Add(1)` and their deferred `Done()`. -/
def State.tracked (s : State) : Nat :=
  (s.handlers.filter fun inv => inv.pc.tracked).length

/-- The number of calls of `FileHandler.Handle` that are executing. -/
def State.executing (s : State) : Nat :=
  (s.handlers.filter fun inv => inv.pc.executing).length

/-- The number of `handle` goroutines that were spawned and have not returned. -/
def State.live (s : State) : Nat :=
  (s.handlers.filter fun inv => inv.pc.live).length

/-- The statement `b` was executed after the statement `a`. -/
def Before (a b : Thread × Eff) (trace : List (Thread × Eff)) : Prop :=
  ∃ l1 l2 l3, trace = l1 ++ a :: (l2 ++ b :: l3)

/-- The increments minus the decrements of the counter executed so far. -/
def State.tally (s : State) : Int :=
  wgNet (s.trace.map Prod.snd)

/-- What a call of `Stop` in progress has executed: its `Close` returned the value it
holds in `err`; past `Wait`, the `Wait` returned after that `Close`. -/
def StopPcInv (env : Env) (s : State) : Prop :=
  match s.stopPc with
  | .idle => True
  | .atLogClosed err | .atLogWaiting err | .atWait err =>
    err = env.watcherClose s.stopCalls ∧
    (Thread.stop s.stopCalls, Eff.watcherClose err) ∈ s.trace
  | .atLogFinished err | .atReturn err =>
    err = env.watcherClose s.stopCalls ∧
    Before (.stop s.stopCalls, .watcherClose err) (.stop s.stopCalls, .wgWait) s.trace

/-- Every call of `Stop` that returned closed the watcher, then waited, then returned
what the close returned. -/
def StopTraceInv (env : Env) (s : State) : Prop :=
  ∀ k v, (Thread.stop k, Eff.ret v) ∈ s.trace →
    v = env.watcherClose k ∧
    Before (.stop k, .watcherClose v) (.stop k, .wgWait) s.trace ∧
    Before (.stop k, .wgWait) (.stop k, .ret v) s.trace

/-! Section: main. -/

/-- How `main` ends. -/
inductive MainOutcome where
  /-- The statement `logger.Fatal().Err(err).Msg(msg)`: the record is written and the process exits
  with status 1. -/
  | fatal (msg : String) (err : GoError)
  /-- The function `main` returns. -/
  | returns
  deriving DecidableEq

/-- The function `main` on what its calls return: `configureLogger`,
`fsnotify.NewWatcher`, `listener.Start` and, after the termination signal,
`listener.Stop`. The value of `Start` is not read: the call is the operand of a `go`
statement. -/
def main (loggerErr watcherErr _startErr stopErr : Option GoError) : MainOutcome :=
  match loggerErr with
  | some err => .fatal "Cannot configure logger" err
  | none =>
    match watcherErr with
    | some err => .fatal "Cannot create filesystem watcher" err
    | none =>
      match stopErr with
      | some err => .fatal "Cannot stop listener" err
      | none => .returns

/-! Section: Concrete surroundings used in the examples. -/

/-- A watcher on which registering and closing succeed. -/
def envOk : Env :=
  { watcherAdd := fun _ => none, watcherClose := fun _ => none, eventString := fun e => e.Name }

/-- A watcher on which registering fails. -/
def envNoPath : Env :=
  { watcherAdd := fun _ => some (.base "no such file or directory"),
    watcherClose := fun _ => none, eventString := fun e => e.Name }

/-- A watcher whose close fails. -/
def envCloseFails : Env :=
  { watcherAdd := fun _ => none, watcherClose := fun _ => some (.base "close failed"),
    eventString := fun e => e.Name }

/-- The context made by `main`. -/
def ctx0 : Context := ⟨0⟩

/-- A write to `a.txt` (`fsnotify.Write` is bit 1). -/
def writeA : Event := ⟨"a.txt", 2⟩

/-- A create of `b.txt` (`fsnotify.Create` is bit 0). -/
def createB : Event := ⟨"b.txt", 1⟩

/-! Section: Start (theorems). -/

theorem run_append (env : Env) (acts1 acts2 : List Action) (s : State) :
    run env s (acts1 ++ acts2) = (run env s acts1).bind fun s' => run env s' acts2 := by
  induction acts1 generalizing s with
  | nil => simp [run]
  | cons a rest ih =>
    simp only [List.cons_append, run]
    cases step env s a with
    | none => simp
    | some s' => simpa using ih s'

/-- Without a dispatch loop and without a call of `Start`, no loop appears, no
invocation is spawned and the counter stays where it is. -/
theorem run_unstarted (env : Env) (acts : List Action)
    (hacts : ∀ c p, Action.start c p ∉ acts) (s s' : State)
    (hloop : s.loop = none) (hh : s.handlers = []) (hrun : run env s acts = some s') :
    s'.loop = none ∧ s'.handlers = [] ∧ s'.counter = s.counter := by
  induction acts generalizing s with
  | nil =>
    simp only [run, Option.some.injEq] at hrun
    subst hrun
    exact ⟨hloop, hh, rfl⟩
  | cons a rest ih =>
    have hrest : ∀ c p, Action.start c p ∉ rest := fun c p hm =>
      hacts c p (List.mem_cons_of_mem _ hm)
    cases a with
    | start c p => exact absurd (List.mem_cons_self _ _) (hacts c p)
    | recv r => simp [run, step, hloop] at hrun
    | handle i => simp [run, step, hh] at hrun
    | stop =>
      simp only [run, step] at hrun
      cases hst : stopStep env s.stopCalls s.counter s.stopPc with
      | none => simp [hst] at hrun
      | some q =>
        obtain ⟨pc, eff⟩ := q
        simp only [hst] at hrun
        have h := ih hrest _ (by exact hloop) (by exact hh) hrun
        exact h

/-- C2: `Start` returns a non-nil error exactly when `watcher.Add` fails. Then the error
is the one built with `%w` around the registration error, no dispatch loop is launched,
the counter is untouched, and as long as `Start` is not called again the listener has no
loop, no invocation and a counter of 0. When `watcher.Add` succeeds, `Start` returns nil
and has launched exactly one dispatch loop, which is running with the context of `Start`. -/
theorem Start_error_iff_registration_fails (env : Env) (ctx : Context) (sourcePath : String) :
    ((∃ e, returned (Start env ctx sourcePath) = some (some e)) ↔
        ∃ err, env.watcherAdd sourcePath = some err) ∧
    (∀ err, env.watcherAdd sourcePath = some err →
        returned (Start env ctx sourcePath) = some (some (registrationError sourcePath err)) ∧
        (registrationError sourcePath err).Unwrap = some err ∧
        launched (Start env ctx sourcePath) = [] ∧
        wgNet (Start env ctx sourcePath) = 0 ∧
        ∀ acts, (∀ c p, Action.start c p ∉ acts) → ∀ s,
          run env NewFileListener (.start ctx sourcePath :: acts) = some s →
          s.loop = none ∧ s.handlers = [] ∧ s.counter = 0) ∧
    (env.watcherAdd sourcePath = none →
        returned (Start env ctx sourcePath) = some none ∧
        launched (Start env ctx sourcePath) = [ctx] ∧
        wgNet (Start env ctx sourcePath) = 0 ∧
        ∃ s, step env NewFileListener (.start ctx sourcePath) = some s ∧
          s.loop = some (ctx, .Running) ∧ s.counter = 0 ∧ s.handlers = []) := by
  refine ⟨?_, ?_, ?_⟩
  · cases h : env.watcherAdd sourcePath with
    | none => simp [Start, h, returned]
    | some err => simp [Start, h, returned]
  · intro err h
    refine ⟨by simp [Start, h, returned], rfl, by simp [Start, h, launched],
      by simp [Start, h, wgNet, Eff.wgDelta], ?_⟩
    intro acts hacts s hrun
    simp only [run, step, NewFileListener] at hrun
    have := run_unstarted env acts hacts _ s
      (by simp [Start, h, launched]) rfl hrun
    simpa using this
  · intro h
    refine ⟨by simp [Start, h, returned], by simp [Start, h, launched],
      by simp [Start, h, wgNet, Eff.wgDelta], ?_⟩
    simp [step, NewFileListener, Start, h, launched]

theorem Start_error_iff_registration_fails_witness :
    (returned (Start envNoPath ctx0 "./") =
        some (some (registrationError "./" (.base "no such file or directory"))) ∧
      launched (Start envNoPath ctx0 "./") = []) ∧
    (returned (Start envOk ctx0 "./") = some none ∧ launched (Start envOk ctx0 "./") = [ctx0]) :=
  ⟨let h := (Start_error_iff_registration_fails envNoPath ctx0 "./").2.1
      (.base "no such file or directory") rfl
   ⟨h.1, h.2.2.1⟩,
   let h := (Start_error_iff_registration_fails envOk ctx0 "./").2.2 rfl
   ⟨h.1, h.2.1⟩⟩

/-! Section: listen (theorems). -/

theorem scheduled_append (a b : List Eff) : scheduled (a ++ b) = scheduled a ++ scheduled b := by
  simp [scheduled, List.filterMap_append]

theorem listen_cons_closed (ctx : Context) (r : Recv) (rest : List Recv)
    (h : r.isClosed = true) :
    listen ctx (r :: rest) = (.Stopped, [.log .stoppedListening, .retVoid]) := by
  cases r with
  | events o => cases o <;> simp_all [listen, listenStep, Recv.isClosed]
  | errors o => cases o <;> simp_all [listen, listenStep, Recv.isClosed]

theorem listen_cons_open (ctx : Context) (r : Recv) (rest : List Recv)
    (h : r.isClosed = false) :
    listen ctx (r :: rest) = ((listen ctx rest).1, (listenStep ctx r).2 ++ (listen ctx rest).2) := by
  cases r with
  | events o => cases o <;> simp_all [listen, listenStep, Recv.isClosed]
  | errors o => cases o <;> simp_all [listen, listenStep, Recv.isClosed]

theorem listen_scheduled (ctx : Context) (inputs : List Recv) :
    scheduled (listen ctx inputs).2 =
      eventsOf ctx (inputs.takeWhile fun r => !r.isClosed) := by
  induction inputs with
  | nil => simp [listen, scheduled, eventsOf]
  | cons r rest ih =>
    cases hr : r.isClosed with
    | true =>
      rw [listen_cons_closed ctx r rest hr]
      simp [List.takeWhile, hr, scheduled, eventsOf]
    | false =>
      rw [listen_cons_open ctx r rest hr, scheduled_append, ih]
      cases r with
      | events o => cases o <;> simp_all [List.takeWhile, listenStep, scheduled, eventsOf, Recv.isClosed]
      | errors o => cases o <;> simp_all [List.takeWhile, listenStep, scheduled, eventsOf, Recv.isClosed]

theorem listen_append_closed (ctx : Context) (pre post : List Recv) (r : Recv)
    (h : r.isClosed = true) :
    listen ctx (pre ++ r :: post) = listen ctx (pre ++ [r]) := by
  induction pre with
  | nil => simp [listen_cons_closed ctx r _ h]
  | cons a rest ih =>
    cases ha : a.isClosed with
    | true => simp [listen_cons_closed ctx a _ ha]
    | false => simp [listen_cons_open ctx a _ ha, ih]

theorem listen_stopped_iff (ctx : Context) (inputs : List Recv) :
    (listen ctx inputs).1 = .Stopped ↔ ∃ r ∈ inputs, r.isClosed = true := by
  induction inputs with
  | nil => simp [listen]
  | cons a rest ih =>
    cases ha : a.isClosed with
    | true => simp [listen_cons_closed ctx a _ ha, ha]
    | false => simp [listen_cons_open ctx a _ ha, ih, ha]

theorem listen_skip_error (ctx : Context) (pre post : List Recv) (err : GoError) :
    (listen ctx (pre ++ .errors (some err) :: post)).1 = (listen ctx (pre ++ post)).1 ∧
    scheduled (listen ctx (pre ++ .errors (some err) :: post)).2 =
      scheduled (listen ctx (pre ++ post)).2 := by
  induction pre with
  | nil =>
    simp [listen_cons_open ctx (.errors (some err)) post rfl, scheduled_append, listenStep,
      scheduled]
  | cons a rest ih =>
    cases ha : a.isClosed with
    | true => simp [listen_cons_closed ctx a _ ha]
    | false => simp [listen_cons_open ctx a _ ha, ih, scheduled_append]

/-- C5: the dispatch loop schedules one `handle` invocation for each event it reads
before a receive observes a closed channel, and none for a source error: the scheduled
invocations are exactly the events read, in the order read, each with the context given
to the loop, equal events included. Five writes to one path schedule five invocations.
A scheduled invocation calls the Handler with that context and that event. -/
theorem listen_schedules_each_event_once (env : Env) (ctx : Context) :
    (∀ inputs : List Recv,
      scheduled (listen ctx inputs).2 =
        eventsOf ctx (inputs.takeWhile fun r => !r.isClosed)) ∧
    (∀ event : Event,
      scheduled (listen ctx (List.replicate 5 (.events (some event)))).2 =
        List.replicate 5 (ctx, event)) ∧
    (∀ sourcePath : String,
      launched (Start env ctx sourcePath) = [] ∨ launched (Start env ctx sourcePath) = [ctx]) ∧
    (∀ event : Event, scheduled (listenStep ctx (.events (some event))).2 = [(ctx, event)]) ∧
    (∀ err : Option GoError, scheduled (listenStep ctx (.errors err)).2 = []) ∧
    (∀ event : Event,
      handleStep env ctx event .atHandle = some (.inHandle, .handlerCall ctx event) ∧
      (handle env ctx event 6 .atLogReceived).2.filter
          (fun eff => match eff with | .handlerCall _ _ => true | _ => false) =
        [.handlerCall ctx event]) := by
  refine ⟨listen_scheduled ctx, ?_, ?_, ?_, ?_, ?_⟩
  · intro event
    rw [listen_scheduled]
    simp [List.replicate, List.takeWhile, Recv.isClosed, eventsOf]
  · intro sourcePath
    cases h : env.watcherAdd sourcePath <;> simp [Start, h, launched]
  · intro event
    simp [listenStep, scheduled]
  · intro err
    cases err <;> simp [listenStep, scheduled]
  · intro event
    exact ⟨rfl, by simp [handle, handleStep]⟩

/-- C6: one iteration leaves the loop Stopped exactly when its receive observes a closed
channel; over a run of receives the loop is Stopped exactly when one of them observed a
closed channel. A source error is only logged and changes neither the state nor what the
receives around it schedule. A closed channel stops the loop also as the very first
receive, with nothing scheduled. After the loop stopped, later receives change nothing,
and in the transition system a stopped loop takes no receive step. A received event
keeps the loop Running and is dispatched, also right after a source error: the error is
logged, then the invocation of the event is scheduled with the context of the loop, and
after an error the loop schedules every event read before a closed receive. -/
theorem listen_stops_exactly_on_close (env : Env) (ctx : Context) :
    (∀ r : Recv, (listenStep ctx r).1 = .Stopped ↔ r.isClosed = true) ∧
    (∀ inputs : List Recv,
      (listen ctx inputs).1 = .Stopped ↔ ∃ r ∈ inputs, r.isClosed = true) ∧
    (∀ err : GoError,
      listenStep ctx (.errors (some err)) = (.Running, [.log (.eventError err)])) ∧
    (∀ (pre post : List Recv) (err : GoError),
      (listen ctx (pre ++ .errors (some err) :: post)).1 = (listen ctx (pre ++ post)).1 ∧
      scheduled (listen ctx (pre ++ .errors (some err) :: post)).2 =
        scheduled (listen ctx (pre ++ post)).2) ∧
    (listen ctx [.events none] = (.Stopped, [.log .stoppedListening, .retVoid]) ∧
      listen ctx [.errors none] = (.Stopped, [.log .stoppedListening, .retVoid])) ∧
    (∀ (pre post : List Recv) (r : Recv), r.isClosed = true →
      listen ctx (pre ++ r :: post) = listen ctx (pre ++ [r])) ∧
    (∀ (s : State) (c : Context) (r : Recv), s.loop = some (c, .Stopped) →
      step env s (.recv r) = none) ∧
    (∀ event : Event,
      listenStep ctx (.events (some event)) = (.Running, [.goHandle ctx event])) ∧
    (∀ (err : GoError) (event : Event),
      listen ctx [.errors (some err), .events (some event)] =
        (.Running, [.log (.eventError err), .goHandle ctx event]) ∧
      scheduled (listen ctx [.errors (some err), .events (some event)]).2 = [(ctx, event)]) ∧
    (∀ (err : GoError) (post : List Recv),
      scheduled (listen ctx (.errors (some err) :: post)).2 =
        eventsOf ctx (post.takeWhile fun r => !r.isClosed)) ∧
    (∀ (s : State) (err : GoError) (event : Event), s.loop = some (ctx, .Running) →
      ∃ s', run env s [.recv (.errors (some err)), .recv (.events (some event))] = some s' ∧
        s'.loop = some (ctx, .Running) ∧
        s'.handlers = s.handlers ++ [⟨ctx, event, .atLogReceived⟩] ∧
        s'.trace = s.trace ++
          [(.listen, .log (.eventError err)), (.listen, .goHandle ctx event)]) := by
  refine ⟨?_, listen_stopped_iff ctx, fun _ => rfl, listen_skip_error ctx, ⟨rfl, rfl⟩,
    fun pre post r h => listen_append_closed ctx pre post r h, ?_, fun _ => rfl,
    fun _ _ => ⟨rfl, rfl⟩, ?_, ?_⟩
  · intro r
    cases r with
    | events o => cases o <;> simp [listenStep, Recv.isClosed]
    | errors o => cases o <;> simp [listenStep, Recv.isClosed]
  · intro s c r h
    simp [step, h]
  · intro err post
    rw [listen_scheduled]
    simp [List.takeWhile, Recv.isClosed, eventsOf]
  · intro s err event h
    simp [run, step, h, listenStep, Recv.isClosed, scheduled]

theorem listen_stops_exactly_on_close_witness :
    listen ctx0 ([.events (some writeA)] ++ .events none :: [.events (some createB)]) =
        listen ctx0 ([.events (some writeA)] ++ [.events none]) ∧
    step envOk { NewFileListener with loop := some (ctx0, .Stopped) }
        (.recv (.events (some writeA))) = none ∧
    ∃ s', run envOk { NewFileListener with loop := some (ctx0, .Running) }
        [.recv (.errors (some (.base "queue overflow"))), .recv (.events (some writeA))] =
          some s' ∧
      s'.loop = some (ctx0, .Running) ∧
      s'.handlers = [⟨ctx0, writeA, .atLogReceived⟩] ∧
      s'.trace = [(.listen, .log (.eventError (.base "queue overflow"))),
        (.listen, .goHandle ctx0 writeA)] :=
  ⟨(listen_stops_exactly_on_close envOk ctx0).2.2.2.2.2.1
      [.events (some writeA)] [.events (some createB)] (.events none) rfl,
   (listen_stops_exactly_on_close envOk ctx0).2.2.2.2.2.2.1
      { NewFileListener with loop := some (ctx0, .Stopped) } ctx0 (.events (some writeA)) rfl,
   (listen_stops_exactly_on_close envOk ctx0).2.2.2.2.2.2.2.2.2.2
      { NewFileListener with loop := some (ctx0, .Running) } (.base "queue overflow") writeA
      rfl⟩

/-! Section: handle (theorems). -/

/-- The statements of one complete `handle` invocation, in order. -/
theorem handle_complete (env : Env) (ctx : Context) (event : Event) (n : Nat) :
    handle env ctx event (6 + n) .atLogReceived =
      (.finished,
        [.log (.eventReceived (env.eventString event)), .wgAdd 1, .handlerCall ctx event,
         .handlerReturn, .log (.eventHandled (env.eventString event)), .wgDone]) := by
  have h : 6 + n = n + 1 + 1 + 1 + 1 + 1 + 1 := by omega
  rw [h]
  cases n <;> simp [handle, handleStep]

/-- C10: a `handle` invocation whose Handler returns executes, in this order: the
receipt log record with the description of its event, `Add(1)`, the one call of the
Handler with its context and event, the return of the Handler, the completion log
record with the same description, and the deferred `Done()`; nothing else, however
long it is run. Its net change to the counter is zero. In the transition system a just
spawned invocation is never blocked: scheduled six times in a row it finishes, having
appended exactly these statements to the trace and left the counter and the other
invocations as they were. -/
theorem handle_runs_handler_once (env : Env) (ctx : Context) (event : Event) :
    (∀ n, handle env ctx event (6 + n) .atLogReceived =
      (.finished,
        [.log (.eventReceived (env.eventString event)), .wgAdd 1, .handlerCall ctx event,
         .handlerReturn, .log (.eventHandled (env.eventString event)), .wgDone])) ∧
    wgNet (handle env ctx event 6 .atLogReceived).2 = 0 ∧
    (∀ (s : State) (i : Nat), s.handlers[i]? = some ⟨ctx, event, .atLogReceived⟩ →
      ∃ s', run env s (List.replicate 6 (.handle i)) = some s' ∧
        s'.counter = s.counter ∧
        s'.handlers = s.handlers.set i ⟨ctx, event, .finished⟩ ∧
        s'.trace = s.trace ++
          (handle env ctx event 6 .atLogReceived).2.map (fun eff => (Thread.handle i, eff)) ∧
        s'.loop = s.loop ∧ s'.closed = s.closed ∧ s'.stopPc = s.stopPc ∧
        s'.stopCalls = s.stopCalls) := by
  refine ⟨handle_complete env ctx event, by simp [handle, handleStep, wgNet, Eff.wgDelta], ?_⟩
  intro s i h
  have hi : i < s.handlers.length := by
    rcases Nat.lt_or_ge i s.handlers.length with hlt | hge
    · exact hlt
    · simp [List.getElem?_eq_none hge] at h
  simp [run, List.replicate, step, h, handle, handleStep, List.getElem?_set, hi, Eff.wgDelta]

theorem handle_runs_handler_once_witness :
    ∃ s', run envOk { NewFileListener with handlers := [⟨ctx0, writeA, .atLogReceived⟩] }
        (List.replicate 6 (.handle 0)) = some s' ∧
      s'.counter = 0 ∧ s'.handlers = [⟨ctx0, writeA, .finished⟩] :=
  let ⟨s', h⟩ := (handle_runs_handler_once envOk ctx0 writeA).2.2
    { NewFileListener with handlers := [⟨ctx0, writeA, .atLogReceived⟩] } 0 rfl
  ⟨s', h.1, h.2.1, h.2.2.1⟩

/-! Section: main (theorems). -/

/-- C8 (the code departs from it): `main` does not read what `Start` returns. A run in
which `Start` returns an error (registering `./` fails) and `Stop` returns nil ends with
`main` returning, not with a fatal log record; the outcome of `main` is the same for every value returned by
`Start`. An error returned by `Stop` is fatal. -/
theorem main_ignores_start_error :
    returned (Start envNoPath ctx0 "./") =
        some (some (registrationError "./" (.base "no such file or directory"))) ∧
    main none none (some (registrationError "./" (.base "no such file or directory"))) none =
        .returns ∧
    (∀ loggerErr watcherErr startErr startErr2 stopErr,
      main loggerErr watcherErr startErr stopErr =
        main loggerErr watcherErr startErr2 stopErr) ∧
    (∀ startErr err, main none none startErr (some err) = .fatal "Cannot stop listener" err) :=
  ⟨rfl, rfl, fun _ _ _ _ _ => rfl, fun _ _ => rfl⟩

/-! Section: the transition system on concrete schedules. -/

/-- C1 (the code departs from it): the dispatch loop receives one event and spawns its
`handle` goroutine; `Stop` is then called and runs to its return, because `Wait` finds
the counter at zero: the goroutine has not reached its `Add(1)`. `Stop` has returned
while the Handler of the received event has not even been called; it is called
afterwards. -/
theorem stop_returns_before_received_event_is_handled :
    ∃ s, run envOk NewFileListener
        ([.start ctx0 "./", .recv (.events (some writeA))] ++ List.replicate 6 .stop) = some s ∧
      s.trace =
        [(.start, .log (.listenerStarted "./")), (.start, .watcherAdd "./" none),
         (.start, .goListen ctx0), (.start, .ret none),
         (.listen, .goHandle ctx0 writeA),
         (.stop 0, .watcherClose none), (.stop 0, .log .listenerClosed),
         (.stop 0, .log .waitingForHandlers), (.stop 0, .wgWait),
         (.stop 0, .log .handlersFinished), (.stop 0, .ret none)] ∧
      s.stopPc = .idle ∧ s.stopCalls = 1 ∧
      s.handlers = [⟨ctx0, writeA, .atLogReceived⟩] ∧
      s.counter = 0 ∧ s.executing = 0 ∧ s.live = 1 ∧
      ∃ s', run envOk s (List.replicate 3 (.handle 0)) = some s' ∧
        s'.handlers = [⟨ctx0, writeA, .inHandle⟩] ∧ s'.counter = 1 ∧ s'.executing = 1 ∧
        s'.stopPc = .idle ∧ s'.stopCalls = 1 :=
  ⟨_, rfl, rfl, rfl, rfl, rfl, rfl, rfl, rfl, _, rfl, rfl, rfl, rfl, rfl, rfl⟩

/-- C7 (the code departs from it): with no event received, `Stop` runs to its return
without blocking. But after one received event, a first call of `Stop` returns while
the `handle` goroutine of that event has not reached its `Add(1)`; the goroutine then
increments the counter and enters the Handler, and a second call of `Stop` finds the
counter at 1 and blocks in `Wait`. -/
theorem second_stop_blocks_after_first_returned :
    (∃ s, run envOk NewFileListener (.start ctx0 "./" :: List.replicate 6 .stop) = some s ∧
      s.stopPc = .idle ∧ s.stopCalls = 1 ∧ s.handlers = []) ∧
    ∃ s, run envOk NewFileListener
        ([.start ctx0 "./", .recv (.events (some writeA))] ++ List.replicate 6 .stop ++
          List.replicate 3 (.handle 0) ++ List.replicate 3 .stop) = some s ∧
      s.trace =
        [(.start, .log (.listenerStarted "./")), (.start, .watcherAdd "./" none),
         (.start, .goListen ctx0), (.start, .ret none),
         (.listen, .goHandle ctx0 writeA),
         (.stop 0, .watcherClose none), (.stop 0, .log .listenerClosed),
         (.stop 0, .log .waitingForHandlers), (.stop 0, .wgWait),
         (.stop 0, .log .handlersFinished), (.stop 0, .ret none),
         (.handle 0, .log (.eventReceived "a.txt")), (.handle 0, .wgAdd 1),
         (.handle 0, .handlerCall ctx0 writeA),
         (.stop 1, .watcherClose none), (.stop 1, .log .listenerClosed),
         (.stop 1, .log .waitingForHandlers)] ∧
      s.stopCalls = 1 ∧ s.stopPc = .atWait none ∧
      s.counter = 1 ∧ s.executing = 1 ∧
      step envOk s .stop = none :=
  ⟨⟨_, rfl, rfl, rfl, rfl⟩, _, rfl, rfl, rfl, rfl, rfl, rfl, rfl⟩

/-- C9 (the code departs from it): on a received event the dispatch loop only executes
`go fl.handle(ctx, event)`; no iteration of the loop changes the counter. The receipt
is logged and the counter incremented afterwards, in that order, by the spawned
goroutine: right after the event was received the invocation exists and the counter
is 0. -/
theorem handle_increments_after_it_is_scheduled :
    (∀ (ctx : Context) (r : Recv),
      (listenStep ctx r).2.all (fun eff => decide (eff.wgDelta = 0)) = true) ∧
    (∀ (ctx : Context) (event : Event),
      listenStep ctx (.events (some event)) = (.Running, [.goHandle ctx event])) ∧
    (∃ s, run envOk NewFileListener [.start ctx0 "./", .recv (.events (some writeA))] = some s ∧
      s.handlers = [⟨ctx0, writeA, .atLogReceived⟩] ∧ s.counter = 0 ∧ s.live = 1) ∧
    ∃ s, run envOk NewFileListener
        [.start ctx0 "./", .recv (.events (some writeA)), .handle 0, .handle 0] = some s ∧
      s.trace =
        [(.start, .log (.listenerStarted "./")), (.start, .watcherAdd "./" none),
         (.start, .goListen ctx0), (.start, .ret none),
         (.listen, .goHandle ctx0 writeA),
         (.handle 0, .log (.eventReceived "a.txt")), (.handle 0, .wgAdd 1)] ∧
      s.counter = 1 := by
  refine ⟨?_, fun _ _ => rfl, ⟨_, rfl, rfl, rfl, rfl⟩, _, rfl, rfl, rfl⟩
  intro ctx r
  cases r with
  | events o => cases o <;> simp [listenStep, Eff.wgDelta]
  | errors o => cases o <;> simp [listenStep, Eff.wgDelta]

/-- C4 (as stated it fails): two events were received; the goroutine of the first has
executed `Add(1)` and stands before the call of the Handler, the goroutine of the
second was spawned and has not run yet. The counter is 1, no call of the Handler is
executing, and two `handle` goroutines are alive: the counter equals neither number. -/
theorem counter_differs_from_executing :
    ∃ s, run envOk NewFileListener
        [.start ctx0 "./", .recv (.events (some writeA)), .recv (.events (some createB)),
         .handle 0, .handle 0] = some s ∧
      s.handlers = [⟨ctx0, writeA, .atHandle⟩, ⟨ctx0, createB, .atLogReceived⟩] ∧
      s.counter = 1 ∧ s.executing = 0 ∧ s.live = 2 ∧
      s.counter ≠ (s.executing : Int) ∧ s.counter ≠ (s.live : Int) :=
  ⟨_, rfl, rfl, rfl, rfl, rfl, by decide, by decide⟩

/-! Section: invariants of the transition system. -/

theorem run_invariant (env : Env) (P : State → Prop)
    (hstep : ∀ s a s', P s → step env s a = some s' → P s') :
    ∀ (acts : List Action) (s0 s : State), P s0 → run env s0 acts = some s → P s := by
  intro acts
  induction acts with
  | nil =>
    intro s0 s h0 hrun
    simp only [run, Option.some.injEq] at hrun
    exact hrun ▸ h0
  | cons a rest ih =>
    intro s0 s h0 hrun
    simp only [run] at hrun
    cases hs : step env s0 a with
    | none => simp [hs] at hrun
    | some s1 =>
      simp only [hs] at hrun
      exact ih s1 s (hstep s0 a s1 h0 hs) hrun

theorem step_start_eq (env : Env) (s s' : State) (c : Context) (p : String)
    (h : step env s (.start c p) = some s') :
    s'.counter = s.counter ∧ s'.handlers = s.handlers ∧ s'.stopPc = s.stopPc ∧
    s'.stopCalls = s.stopCalls ∧
    s'.trace = s.trace ++ (Start env c p).map fun e => (Thread.start, e) := by
  simp only [step] at h
  split at h
  · simp at h
  · simp only [Option.some.injEq] at h
    subst h
    simp

theorem step_recv_eq (env : Env) (s s' : State) (r : Recv)
    (h : step env s (.recv r) = some s') :
    ∃ ctx, s.loop = some (ctx, .Running) ∧
    s'.counter = s.counter ∧
    s'.handlers = s.handlers ++
      (scheduled (listenStep ctx r).2).map (fun p => Invocation.mk p.1 p.2 .atLogReceived) ∧
    s'.stopPc = s.stopPc ∧ s'.stopCalls = s.stopCalls ∧
    s'.trace = s.trace ++ (listenStep ctx r).2.map fun e => (Thread.listen, e) := by
  simp only [step] at h
  split at h
  · rename_i ctx hl
    split at h
    · simp at h
    · simp only [Option.some.injEq] at h
      subst h
      exact ⟨ctx, hl, rfl, rfl, rfl, rfl, rfl⟩
  · simp at h

theorem step_handle_eq (env : Env) (s s' : State) (i : Nat)
    (h : step env s (.handle i) = some s') :
    ∃ inv pc eff, s.handlers[i]? = some inv ∧
    handleStep env inv.ctx inv.event inv.pc = some (pc, eff) ∧
    s'.counter = s.counter + eff.wgDelta ∧
    s'.handlers = s.handlers.set i { inv with pc := pc } ∧
    s'.stopPc = s.stopPc ∧ s'.stopCalls = s.stopCalls ∧
    s'.trace = s.trace ++ [(Thread.handle i, eff)] := by
  simp only [step] at h
  split at h
  · simp at h
  · rename_i inv hinv
    split at h
    · simp at h
    · rename_i pc eff hst
      simp only [Option.some.injEq] at h
      subst h
      exact ⟨inv, pc, eff, hinv, hst, rfl, rfl, rfl, rfl, rfl⟩

theorem step_stop_eq (env : Env) (s s' : State)
    (h : step env s .stop = some s') :
    ∃ pc eff, stopStep env s.stopCalls s.counter s.stopPc = some (pc, eff) ∧
    s'.counter = s.counter ∧ s'.handlers = s.handlers ∧ s'.stopPc = pc ∧
    s'.stopCalls = s.stopCalls + (match eff with | .ret _ => 1 | _ => 0) ∧
    s'.trace = s.trace ++ [(Thread.stop s.stopCalls, eff)] := by
  simp only [step] at h
  split at h
  · simp at h
  · rename_i pc eff hst
    simp only [Option.some.injEq] at h
    subst h
    exact ⟨pc, eff, hst, rfl, rfl, rfl, rfl, rfl⟩

theorem length_filter_set {α : Type} (p : α → Bool) (l : List α) (i : Nat) (a x : α)
    (h : l[i]? = some a) :
    ((l.set i x).filter p).length + (if p a then 1 else 0) =
      (l.filter p).length + (if p x then 1 else 0) := by
  induction l generalizing i with
  | nil => simp at h
  | cons b rest ih =>
    cases i with
    | zero =>
      simp only [List.getElem?_cons_zero, Option.some.injEq] at h
      subst h
      simp only [List.set_cons_zero, List.filter_cons]
      cases p b <;> cases p x <;> simp
    | succ j =>
      simp only [List.getElem?_cons_succ] at h
      have := ih j h
      simp only [List.set_cons_succ, List.filter_cons]
      cases p b <;> simp <;> omega

theorem length_filter_le_of_imp {α : Type} (p q : α → Bool) (l : List α)
    (h : ∀ a, p a = true → q a = true) :
    (l.filter p).length ≤ (l.filter q).length := by
  induction l with
  | nil => simp
  | cons b rest ih =>
    simp only [List.filter_cons]
    cases hp : p b with
    | false =>
      cases q b <;> simp <;> omega
    | true =>
      simp [h b hp, ih]

theorem filter_tracked_spawned (l : List (Context × Event)) :
    List.filter (fun inv : Invocation => inv.pc.tracked)
      (List.map (fun p => Invocation.mk p.1 p.2 .atLogReceived) l) = [] := by
  induction l with
  | nil => rfl
  | cons a rest ih =>
    rw [List.map_cons, List.filter_cons, ih]
    rfl

theorem wgNet_append (a b : List Eff) : wgNet (a ++ b) = wgNet a + wgNet b := by
  simp [wgNet]

theorem wgNet_Start (env : Env) (c : Context) (p : String) : wgNet (Start env c p) = 0 := by
  cases h : env.watcherAdd p <;> simp [Start, h, wgNet, Eff.wgDelta]

theorem wgNet_listenStep (ctx : Context) (r : Recv) : wgNet (listenStep ctx r).2 = 0 := by
  cases r with
  | events o => cases o <;> simp [listenStep, wgNet, Eff.wgDelta]
  | errors o => cases o <;> simp [listenStep, wgNet, Eff.wgDelta]

theorem wgDelta_stopStep (env : Env) (k : Nat) (counter : Int) (pc pc' : StopPc) (eff : Eff)
    (h : stopStep env k counter pc = some (pc', eff)) : eff.wgDelta = 0 := by
  cases pc <;> simp only [stopStep] at h
  case atWait err =>
    split at h
    · simp only [Option.some.injEq, Prod.mk.injEq] at h
      rw [← h.2]; rfl
    · simp at h
  all_goals
    simp only [Option.some.injEq, Prod.mk.injEq] at h
    rw [← h.2]; rfl

theorem counter_step (env : Env) (s : State) (a : Action) (s' : State)
    (hinv : s.counter = s.tracked ∧ s.counter = s.tally)
    (h : step env s a = some s') :
    s'.counter = s'.tracked ∧ s'.counter = s'.tally := by
  obtain ⟨ht, hn⟩ := hinv
  cases a with
  | start c p =>
    obtain ⟨hc, hh, -, -, htr⟩ := step_start_eq env s s' c p h
    refine ⟨by simp only [State.tracked, hc, hh]; exact ht, ?_⟩
    simp only [State.tally, htr, List.map_append, List.map_map, wgNet_append, hc]
    have : (List.map (Prod.snd ∘ fun e => (Thread.start, e)) (Start env c p)) = Start env c p := by
      simp [Function.comp_def]
    rw [this, wgNet_Start]
    simpa [State.tally] using hn
  | recv r =>
    obtain ⟨ctx, -, hc, hh, -, -, htr⟩ := step_recv_eq env s s' r h
    constructor
    · simp only [State.tracked, hc, hh, List.filter_append, List.length_append]
      rw [filter_tracked_spawned]
      simpa [State.tracked] using ht
    · simp only [State.tally, htr, List.map_append, List.map_map, wgNet_append, hc]
      have : (List.map (Prod.snd ∘ fun e => (Thread.listen, e)) (listenStep ctx r).2) =
          (listenStep ctx r).2 := by
        simp [Function.comp_def]
      rw [this, wgNet_listenStep]
      simpa [State.tally] using hn
  | handle i =>
    obtain ⟨inv, pc, eff, hi, hst, hc, hh, -, -, htr⟩ := step_handle_eq env s s' i h
    constructor
    · have hset := length_filter_set (fun inv : Invocation => inv.pc.tracked) s.handlers i inv
        { inv with pc := pc } hi
      simp only [State.tracked] at ht ⊢
      rw [hc, hh]
      obtain ⟨c, e, ipc⟩ := inv
      cases ipc <;> simp only [handleStep] at hst <;> cases hst <;>
        (simp [HandlePc.tracked, Eff.wgDelta] at hset ht ⊢; omega)
    · simp only [State.tally, htr, List.map_append, wgNet_append, hc]
      simp only [State.tally] at hn
      rw [hn]
      simp [wgNet]
  | stop =>
    obtain ⟨pc, eff, hst, hc, hh, -, -, htr⟩ := step_stop_eq env s s' h
    refine ⟨by simp only [State.tracked, hc, hh]; exact ht, ?_⟩
    simp only [State.tally, htr, List.map_append, wgNet_append, hc]
    simp only [State.tally] at hn
    rw [hn]
    simp [wgNet, wgDelta_stopStep env _ _ _ _ _ hst]

/-- C4 (amended): in every reachable state the counter is not negative and equals the
number of `handle` invocations that have executed their `Add(1)` and not yet their
deferred `Done()`. Every executing call of the Handler belongs to such an invocation,
so the counter is at least the number of executing Handler calls and is zero only when
no Handler call is executing. No update is lost: the counter equals the increments minus
the decrements executed so far. -/
theorem counter_counts_tracked_invocations (env : Env) (acts : List Action) (s : State)
    (hrun : run env NewFileListener acts = some s) :
    0 ≤ s.counter ∧ s.counter = (s.tracked : Int) ∧ (s.executing : Int) ≤ s.counter ∧
    (s.counter = 0 → s.executing = 0) ∧ s.counter = s.tally := by
  have hinv := run_invariant env (fun s => s.counter = s.tracked ∧ s.counter = s.tally)
    (counter_step env) acts NewFileListener s
    (by simp [NewFileListener, State.tracked, State.tally, wgNet]) hrun
  have hle : s.executing ≤ s.tracked :=
    length_filter_le_of_imp _ _ s.handlers (fun inv h => by
      cases hpc : inv.pc <;> simp_all [HandlePc.executing, HandlePc.tracked])
  refine ⟨by omega, hinv.1, by omega, fun h => by omega, hinv.2⟩

theorem counter_counts_tracked_invocations_witness :
    run envOk NewFileListener
        [.start ctx0 "./", .recv (.events (some writeA)), .recv (.events (some createB)),
         .handle 0, .handle 0, .handle 0, .handle 1, .handle 1] =
      some
        { loop := some (ctx0, .Running), closed := false, counter := 2,
          handlers := [⟨ctx0, writeA, .inHandle⟩, ⟨ctx0, createB, .atHandle⟩],
          stopPc := .idle, stopCalls := 0,
          trace :=
            [(.start, .log (.listenerStarted "./")), (.start, .watcherAdd "./" none),
             (.start, .goListen ctx0), (.start, .ret none),
             (.listen, .goHandle ctx0 writeA), (.listen, .goHandle ctx0 createB),
             (.handle 0, .log (.eventReceived "a.txt")), (.handle 0, .wgAdd 1),
             (.handle 0, .handlerCall ctx0 writeA),
             (.handle 1, .log (.eventReceived "b.txt")), (.handle 1, .wgAdd 1)] } ∧
    (2 : Int) = ((2 : Nat) : Int) ∧ ((1 : Nat) : Int) ≤ 2 :=
  ⟨rfl,
   (counter_counts_tracked_invocations envOk
      [.start ctx0 "./", .recv (.events (some writeA)), .recv (.events (some createB)),
       .handle 0, .handle 0, .handle 0, .handle 1, .handle 1] _ rfl).2.1,
   (counter_counts_tracked_invocations envOk
      [.start ctx0 "./", .recv (.events (some writeA)), .recv (.events (some createB)),
       .handle 0, .handle 0, .handle 0, .handle 1, .handle 1] _ rfl).2.2.1⟩

/-! Section: Stop (theorems). -/

theorem Before_append {a b : Thread × Eff} {t : List (Thread × Eff)} (new : List (Thread × Eff))
    (h : Before a b t) : Before a b (t ++ new) := by
  obtain ⟨l1, l2, l3, rfl⟩ := h
  exact ⟨l1, l2, l3 ++ new, by simp⟩

theorem Before_snoc {a : Thread × Eff} {t : List (Thread × Eff)} (b : Thread × Eff)
    (h : a ∈ t) : Before a b (t ++ [b]) := by
  obtain ⟨l1, l2, rfl⟩ := List.append_of_mem h
  exact ⟨l1, l2, [], by simp⟩

theorem Before_mem_right {a b : Thread × Eff} {t : List (Thread × Eff)}
    (h : Before a b t) : b ∈ t := by
  obtain ⟨l1, l2, l3, rfl⟩ := h
  simp

theorem trace_inv_mono (env : Env) (s s' : State) (new : List (Thread × Eff))
    (htr : s'.trace = s.trace ++ new)
    (hnew : ∀ k v, (Thread.stop k, Eff.ret v) ∉ new)
    (h : StopTraceInv env s) : StopTraceInv env s' := by
  intro k v hm
  rw [htr] at hm ⊢
  rcases List.mem_append.1 hm with hold | hn
  · obtain ⟨h1, h2, h3⟩ := h k v hold
    exact ⟨h1, Before_append new h2, Before_append new h3⟩
  · exact absurd hn (hnew k v)

theorem pc_inv_mono (env : Env) (s s' : State) (new : List (Thread × Eff))
    (hpc : s'.stopPc = s.stopPc) (hk : s'.stopCalls = s.stopCalls)
    (htr : s'.trace = s.trace ++ new)
    (h : StopPcInv env s) : StopPcInv env s' := by
  unfold StopPcInv at h ⊢
  rw [hpc, hk, htr]
  cases hs : s.stopPc <;> simp only [hs] at h ⊢
  · exact ⟨h.1, List.mem_append_left _ h.2⟩
  · exact ⟨h.1, List.mem_append_left _ h.2⟩
  · exact ⟨h.1, List.mem_append_left _ h.2⟩
  · exact ⟨h.1, Before_append new h.2⟩
  · exact ⟨h.1, Before_append new h.2⟩

theorem stop_inv_step (env : Env) (s : State) (a : Action) (s' : State)
    (hinv : StopPcInv env s ∧ StopTraceInv env s)
    (h : step env s a = some s') :
    StopPcInv env s' ∧ StopTraceInv env s' := by
  obtain ⟨hp, ht⟩ := hinv
  cases a with
  | start c p =>
    obtain ⟨-, -, hpc, hk, htr⟩ := step_start_eq env s s' c p h
    exact ⟨pc_inv_mono env s s' _ hpc hk htr hp,
      trace_inv_mono env s s' _ htr (by simp) ht⟩
  | recv r =>
    obtain ⟨ctx, -, -, -, hpc, hk, htr⟩ := step_recv_eq env s s' r h
    exact ⟨pc_inv_mono env s s' _ hpc hk htr hp,
      trace_inv_mono env s s' _ htr (by simp) ht⟩
  | handle i =>
    obtain ⟨inv, pc, eff, -, -, -, -, hpc, hk, htr⟩ := step_handle_eq env s s' i h
    exact ⟨pc_inv_mono env s s' _ hpc hk htr hp,
      trace_inv_mono env s s' _ htr (by simp) ht⟩
  | stop =>
    obtain ⟨pc, eff, hst, -, -, hpc, hk, htr⟩ := step_stop_eq env s s' h
    unfold StopPcInv at hp ⊢
    cases hs : s.stopPc with
    | idle =>
      simp only [hs, stopStep, Option.some.injEq, Prod.mk.injEq] at hst
      obtain ⟨rfl, rfl⟩ := hst
      simp only [Nat.add_zero] at hk
      refine ⟨?_, trace_inv_mono env s s' _ htr (by simp) ht⟩
      simp only [hpc, hk, htr]
      exact ⟨trivial, by simp⟩
    | atLogClosed err =>
      simp only [hs, stopStep, Option.some.injEq, Prod.mk.injEq] at hst hp
      obtain ⟨rfl, rfl⟩ := hst
      simp only [Nat.add_zero] at hk
      refine ⟨?_, trace_inv_mono env s s' _ htr (by simp) ht⟩
      simp only [hpc, hk, htr]
      exact ⟨hp.1, List.mem_append_left _ hp.2⟩
    | atLogWaiting err =>
      simp only [hs, stopStep, Option.some.injEq, Prod.mk.injEq] at hst hp
      obtain ⟨rfl, rfl⟩ := hst
      simp only [Nat.add_zero] at hk
      refine ⟨?_, trace_inv_mono env s s' _ htr (by simp) ht⟩
      simp only [hpc, hk, htr]
      exact ⟨hp.1, List.mem_append_left _ hp.2⟩
    | atWait err =>
      simp only [hs, stopStep] at hst hp
      split at hst
      · simp only [Option.some.injEq, Prod.mk.injEq] at hst
        obtain ⟨rfl, rfl⟩ := hst
        simp only [Nat.add_zero] at hk
        refine ⟨?_, trace_inv_mono env s s' _ htr (by simp) ht⟩
        simp only [hpc, hk, htr]
        exact ⟨hp.1, Before_snoc _ hp.2⟩
      · simp at hst
    | atLogFinished err =>
      simp only [hs, stopStep, Option.some.injEq, Prod.mk.injEq] at hst hp
      obtain ⟨rfl, rfl⟩ := hst
      simp only [Nat.add_zero] at hk
      refine ⟨?_, trace_inv_mono env s s' _ htr (by simp) ht⟩
      simp only [hpc, hk, htr]
      exact ⟨hp.1, Before_append _ hp.2⟩
    | atReturn err =>
      simp only [hs, stopStep, Option.some.injEq, Prod.mk.injEq] at hst hp
      obtain ⟨rfl, rfl⟩ := hst
      refine ⟨by simp only [hpc], ?_⟩
      intro k v hm
      rw [htr] at hm ⊢
      rcases List.mem_append.1 hm with hold | hn
      · obtain ⟨h1, h2, h3⟩ := ht k v hold
        exact ⟨h1, Before_append _ h2, Before_append _ h3⟩
      · simp only [List.mem_singleton, Prod.mk.injEq, Thread.stop.injEq, Eff.ret.injEq] at hn
        obtain ⟨rfl, rfl⟩ := hn
        exact ⟨hp.1, Before_append _ hp.2, Before_snoc _ (Before_mem_right hp.2)⟩

/-- C3: in every reachable state, a call of `Stop` that returned `v` executed
`watcher.Close()`, which returned `v`, then `Wait()`, then `return v`, in this order,
whatever `Close` returned. The call is blocked only at `Wait` and only while the counter
is not zero; started with the counter at zero it runs to its return in six statements:
close, two log records, `Wait`, a log record, `return` of what `Close` returned. -/
theorem Stop_returns_what_Close_returned (env : Env) :
    (∀ (acts : List Action) (s : State), run env NewFileListener acts = some s →
      ∀ k v, (Thread.stop k, Eff.ret v) ∈ s.trace →
        v = env.watcherClose k ∧
        Before (.stop k, .watcherClose v) (.stop k, .wgWait) s.trace ∧
        Before (.stop k, .wgWait) (.stop k, .ret v) s.trace) ∧
    (∀ s : State, step env s .stop = none ↔ (∃ err, s.stopPc = .atWait err) ∧ s.counter ≠ 0) ∧
    (∀ s : State, s.stopPc = .idle → s.counter = 0 →
      ∃ s', run env s (List.replicate 6 .stop) = some s' ∧
        s'.trace = s.trace ++
          [(.stop s.stopCalls, .watcherClose (env.watcherClose s.stopCalls)),
           (.stop s.stopCalls, .log .listenerClosed),
           (.stop s.stopCalls, .log .waitingForHandlers),
           (.stop s.stopCalls, .wgWait),
           (.stop s.stopCalls, .log .handlersFinished),
           (.stop s.stopCalls, .ret (env.watcherClose s.stopCalls))] ∧
        s'.stopPc = .idle ∧ s'.stopCalls = s.stopCalls + 1 ∧ s'.closed = true ∧
        s'.counter = 0 ∧ s'.handlers = s.handlers) := by
  refine ⟨?_, ?_, ?_⟩
  · intro acts s hrun
    exact (run_invariant env (fun s => StopPcInv env s ∧ StopTraceInv env s)
      (stop_inv_step env) acts NewFileListener s
      ⟨by simp [StopPcInv, NewFileListener], by simp [StopTraceInv, NewFileListener]⟩ hrun).2
  · intro s
    simp only [step]
    cases hs : s.stopPc <;> simp [stopStep]
    by_cases hc : s.counter = 0 <;> simp [hc]
  · intro s hpc hc
    simp [run, List.replicate, step, stopStep, hpc, hc]

theorem Stop_returns_what_Close_returned_witness :
    some (GoError.base "close failed") = envCloseFails.watcherClose 0 ∧
    Before (.stop 0, .watcherClose (some (.base "close failed"))) (.stop 0, .wgWait)
      [(.start, .log (.listenerStarted "./")), (.start, .watcherAdd "./" none),
       (.start, .goListen ctx0), (.start, .ret none),
       (.stop 0, .watcherClose (some (.base "close failed"))),
       (.stop 0, .log .listenerClosed), (.stop 0, .log .waitingForHandlers),
       (.stop 0, .wgWait), (.stop 0, .log .handlersFinished),
       (.stop 0, .ret (some (.base "close failed")))] ∧
    Before (.stop 0, .wgWait) (.stop 0, .ret (some (.base "close failed")))
      [(.start, .log (.listenerStarted "./")), (.start, .watcherAdd "./" none),
       (.start, .goListen ctx0), (.start, .ret none),
       (.stop 0, .watcherClose (some (.base "close failed"))),
       (.stop 0, .log .listenerClosed), (.stop 0, .log .waitingForHandlers),
       (.stop 0, .wgWait), (.stop 0, .log .handlersFinished),
       (.stop 0, .ret (some (.base "close failed")))] :=
  (Stop_returns_what_Close_returned envCloseFails).1
    (.start ctx0 "./" :: List.replicate 6 .stop)
    { loop := some (ctx0, .Running), closed := true, counter := 0, handlers := [],
      stopPc := .idle, stopCalls := 1,
      trace :=
        [(.start, .log (.listenerStarted "./")), (.start, .watcherAdd "./" none),
         (.start, .goListen ctx0), (.start, .ret none),
         (.stop 0, .watcherClose (some (.base "close failed"))),
         (.stop 0, .log .listenerClosed), (.stop 0, .log .waitingForHandlers),
         (.stop 0, .wgWait), (.stop 0, .log .handlersFinished),
         (.stop 0, .ret (some (.base "close failed")))] }
    rfl 0 (some (.base "close failed")) (by simp)

end GracefulShutdown
